import Mathlib

/-!
Shallow embedding of the expression-evaluation engine of the repository
(`simple-math-lib`): the tokenizer of `src/simple-math-lib/src/parser.rs`
and the recursive-descent evaluator of
`src/simple-math-lib/src/calculator.rs`, together with theorems settling
the frozen claims about them.

Numbers: the source uses the external `bigdecimal` crate's `BigDecimal`,
an arbitrary-precision decimal stored as an integer `int_val` together
with a decimal `scale` (value = int_val / 10^scale), with no
normalisation.  We model it by exactly that pair.  The arithmetic
operations (`add`, `sub`, `mul`, equality, `with_scale`, `to_bigint`,
`sign`) follow the crate's exact-decimal semantics.  Division in the
crate performs decimal long division that is exact whenever the quotient
terminates (the claims only exercise terminating cases); our model
computes the exact quotient when it terminates within the crate's
100-digit default precision and truncates at 100 digits otherwise.
-/

set_option maxRecDepth 2000000
set_option maxHeartbeats 1600000

namespace MathTest

/-- Models the external `bigdecimal` crate's `BigDecimal`: an exact decimal
number `intVal / 10 ^ scale`.  The crate stores `scale` as a signed 64-bit
integer; we use `ℤ`. -/
structure BigDecimal where
  intVal : ℤ
  scale : ℤ
deriving DecidableEq, Repr

namespace BigDecimal

/-- `BigDecimal::new(int_val, scale)` from the crate. -/
def new (i s : ℤ) : BigDecimal := ⟨i, s⟩

/-- `BigDecimal::from(n)` for an integer primitive. -/
def ofInt (n : ℤ) : BigDecimal := ⟨n, 0⟩

/-- `BigDecimal::zero()`. -/
def zero : BigDecimal := ⟨0, 0⟩

/-- `BigDecimal::one()`. -/
def one : BigDecimal := ⟨1, 0⟩

/-- The integer numerator of `a` rescaled to scale `m` (for `m ≥ a.scale`);
used to align two decimals on a common scale, as the crate does before
adding or comparing. -/
def alignTo (a : BigDecimal) (m : ℤ) : ℤ :=
  a.intVal * 10 ^ (m - a.scale).toNat

/-- The crate's `PartialEq`: value equality after aligning scales. -/
def eqv (a b : BigDecimal) : Bool :=
  let m := max a.scale b.scale
  a.alignTo m == b.alignTo m

/-- The crate's addition: exact, on the larger scale. -/
def add (a b : BigDecimal) : BigDecimal :=
  let m := max a.scale b.scale
  ⟨a.alignTo m + b.alignTo m, m⟩

/-- The crate's subtraction: exact, on the larger scale. -/
def sub (a b : BigDecimal) : BigDecimal :=
  let m := max a.scale b.scale
  ⟨a.alignTo m - b.alignTo m, m⟩

/-- The crate's multiplication: exact, scales add. -/
def mul (a b : BigDecimal) : BigDecimal :=
  ⟨a.intVal * b.intVal, a.scale + b.scale⟩

/-- The crate's negation. -/
def neg (a : BigDecimal) : BigDecimal := ⟨-a.intVal, a.scale⟩

/-- The crate's `Signed::abs`. -/
def abs (a : BigDecimal) : BigDecimal := ⟨|a.intVal|, a.scale⟩

/-- The crate's `with_scale`: rescale, truncating toward zero when digits
are dropped (`BigInt` division truncates toward zero). -/
def with_scale (a : BigDecimal) (ns : ℤ) : BigDecimal :=
  if a.scale ≤ ns then ⟨a.intVal * 10 ^ (ns - a.scale).toNat, ns⟩
  else ⟨Int.tdiv a.intVal (10 ^ (a.scale - ns).toNat), ns⟩

/-- The crate's `ToBigInt`: truncate the fractional digits (toward zero). -/
def toBigInt (a : BigDecimal) : ℤ := (a.with_scale 0).intVal

/-- The crate's `Zero::is_zero` (the value is zero iff `int_val` is). -/
def isZero (a : BigDecimal) : Bool := a.intVal == 0

/-- The crate's `sign`, as an integer: -1 for `Sign::Minus`, 0 for
`Sign::NoSign`, 1 for `Sign::Plus` (the sign of `int_val`). -/
def sign (a : BigDecimal) : ℤ := Int.sign a.intVal

/-- The crate's remainder `%` aligned on the common scale; the sign follows
the left operand as for `BigInt` (truncated remainder).  The engine only
applies it to whole operands (`power % 2` inside `pow`). -/
def rem (a b : BigDecimal) : BigDecimal :=
  let m := max a.scale b.scale
  ⟨Int.tmod (a.alignTo m) (b.alignTo m), m⟩

/-- Modelled from the external `bigdecimal` crate: decimal long division.
Exact whenever the quotient terminates within the crate's 100-digit
default precision (every division the claims exercise is exact), and
truncated at 100 digits otherwise.  The crate panics on a zero divisor;
the engine guards every division with an `is_zero` check except the
reciprocal inside `pow`, which no claim reaches with a zero base. -/
def div (a b : BigDecimal) : BigDecimal :=
  match (List.range 101).find? (fun k => Int.tmod (a.intVal * 10 ^ k) b.intVal == 0) with
  | some k => ⟨Int.tdiv (a.intVal * 10 ^ k) b.intVal, a.scale - b.scale + k⟩
  | none => ⟨Int.tdiv (a.intVal * 10 ^ 100) b.intVal, a.scale - b.scale + 100⟩

end BigDecimal

/-- Models Rust's `char::to_digit`. -/
def to_digit (c : Char) (radix : ℕ) : Option ℕ :=
  let v : Option ℕ :=
    if decide ('0' ≤ c ∧ c ≤ '9') then some (c.toNat - '0'.toNat)
    else if decide ('a' ≤ c ∧ c ≤ 'z') then some (c.toNat - 'a'.toNat + 10)
    else if decide ('A' ≤ c ∧ c ≤ 'Z') then some (c.toNat - 'A'.toNat + 10)
    else none
  v.bind fun d => if d < radix then some d else none

/-- Models `BigInt::from_str_radix` from the external `num` crate, for the
sign-less digit strings the tokenizer can produce: fails on an empty
string or any character that is not a digit of the radix. -/
def from_str_radix (s : List Char) (radix : ℕ) : Option ℤ :=
  if s.isEmpty then none
  else s.foldl
    (fun acc c => acc.bind fun v => (to_digit c radix).map fun d => v * radix + d)
    (some 0)

/-- Splits a character list at the first exponent marker `e`/`E`
(helper for the decimal-literal model below). -/
def splitExp : List Char → List Char × Option (List Char)
  | [] => ([], none)
  | c :: rest =>
    if c == 'e' || c == 'E' then ([], some rest)
    else
      let (m, e) := splitExp rest
      (c :: m, e)

/-- Splits a character list at the first decimal point
(helper for the decimal-literal model below). -/
def splitDot : List Char → List Char × Option (List Char)
  | [] => ([], none)
  | c :: rest =>
    if c == '.' then ([], some rest)
    else
      let (m, e) := splitDot rest
      (c :: m, e)

/-- Models `BigDecimal::from_str` from the external `bigdecimal` crate for
the sign-less forms the tokenizer's buffer can hold: decimal digits with
an optional single `.` and an optional `e`/`E` exponent; the digits of
the mantissa must be non-empty and the scale is the number of fractional
digits minus the exponent. -/
def bigDecimalFromStr (s : List Char) : Option BigDecimal :=
  let (mant, expPart) := splitExp s
  let expVal : Option ℤ :=
    match expPart with
    | none => some 0
    | some e => from_str_radix e 10
  match expVal with
  | none => none
  | some ex =>
    let (ip, fpOpt) := splitDot mant
    let fp := fpOpt.getD []
    match from_str_radix (ip ++ fp) 10 with
    | none => none
    | some v => some ⟨v, (fp.length : ℤ) - ex⟩

/-- `parse_num` from `parser.rs`: `0x`/`0o`/`0b` radix literals become
whole `BigDecimal`s (`BigDecimal::new(int, 0)`); anything else goes
through the crate's decimal parser. -/
def parse_num (s : List Char) : Option BigDecimal :=
  if s.take 2 = ['0', 'x'] then (from_str_radix (s.drop 2) 16).map (BigDecimal.new · 0)
  else if s.take 2 = ['0', 'o'] then (from_str_radix (s.drop 2) 8).map (BigDecimal.new · 0)
  else if s.take 2 = ['0', 'b'] then (from_str_radix (s.drop 2) 2).map (BigDecimal.new · 0)
  else bigDecimalFromStr s

/-- `is_num` from `parser.rs`: radix prefix detection on the first two
characters, then every remaining character must be a digit of the radix
(or `.` in the decimal case), and at least one must remain. -/
def is_num (num : List Char) : Bool :=
  let radix : ℕ :=
    if num.length < 2 then 10
    else match num.take 2 with
      | ['0', 'x'] => 16
      | ['0', 'o'] => 8
      | ['0', 'b'] => 2
      | _ => 10
  let num := if radix ≠ 10 then num.drop 2 else num
  !num.isEmpty && num.all fun c => (to_digit c radix).isSome || (radix == 10 && c == '.')

/-- `Token` from `parser.rs`.  The `Pow` variant is matched by
`calc_level7` in `calculator.rs`; the tokenizer of this snapshot never
produces it (its `*` always becomes `Mul`). -/
inductive Token
  | BlockName (name : String)
  | ParenOpen
  | Separator
  | ParenClose
  | VarAssign (name : String)
  | VarGet (name : String)
  | Num (num : BigDecimal)
  | Add
  | Sub
  | Mul
  | Div
  | Rem
  | And
  | Or
  | Xor
  | BitshiftLeft
  | BitshiftRight
  | Not
  | Factorial
  | Pow
deriving DecidableEq, Repr

/-- `ParseError` from `parser.rs`. -/
inductive ParseError
  | DisallowedChar (c : Char)
  | DisallowedDecimal
  | DisallowedVariable (name : String)
  | UnclosedBitShift (c : Char)
deriving DecidableEq, Repr

/-- The `prepare_var!` macro of `parse`: insert an implicit `Mul` when a
variable-get token is about to follow a number token. -/
def prepare_var (out : List Token) : List Token :=
  match out.getLast? with
  | some (Token.Num _) => out ++ [Token.Mul]
  | _ => out

/-- The `flush!` macro of `parse`: emit the buffer as a number if it
parses, else as a variable get (with implicit multiplication). -/
def flush (out : List Token) (buf : List Char) : List Token :=
  if buf.isEmpty then out
  else match parse_num buf with
    | some num => out ++ [Token.Num num]
    | none => prepare_var out ++ [Token.VarGet (String.mk buf)]

/-- The single-character operator arms of the `match c` in `parse`. -/
def char_token (c : Char) : Option Token :=
  if c == ',' then some Token.Separator
  else if c == ')' then some Token.ParenClose
  else if c == '+' then some Token.Add
  else if c == '-' then some Token.Sub
  else if c == '*' then some Token.Mul
  else if c == '/' then some Token.Div
  else if c == '%' then some Token.Rem
  else if c == '&' then some Token.And
  else if c == '|' then some Token.Or
  else if c == '^' then some Token.Xor
  else if c == '~' then some Token.Not
  else if c == '!' then some Token.Factorial
  else none

/-- The character loop of `parse` from `parser.rs`, as structural
recursion over the remaining input, carrying the emitted tokens and the
accumulation buffer. -/
def parseLoop : List Char → List Token → List Char → Except ParseError (List Token)
  | [], out, buf => .ok (flush out buf)
  | '<' :: rest, out, buf =>
    match rest with
    | '<' :: rest2 => parseLoop rest2 (flush out buf ++ [Token.BitshiftLeft]) []
    | _ => .error (ParseError.UnclosedBitShift '<')
  | '>' :: rest, out, buf =>
    match rest with
    | '>' :: rest2 => parseLoop rest2 (flush out buf ++ [Token.BitshiftRight]) []
    | _ => .error (ParseError.UnclosedBitShift '>')
  | c :: rest, out, buf =>
    if c == ' ' then parseLoop rest out buf
    else match char_token c with
    | some t => parseLoop rest (flush out buf ++ [t]) []
    | none =>
      if c == '(' then
        let out :=
          if buf.isEmpty then out
          else match parse_num buf with
            | some num => out ++ [Token.Num num, Token.Mul]
            | none => out ++ [Token.BlockName (String.mk buf)]
        parseLoop rest (out ++ [Token.ParenOpen]) []
      else if c == '=' then
        if buf.isEmpty || is_num buf || buf.head? == some '$' || buf.head? == some '0' then
          .error (ParseError.DisallowedVariable (String.mk buf))
        else parseLoop rest (out ++ [Token.VarAssign (String.mk buf)]) []
      else
        let was_num := is_num buf
        let buf2 := buf ++ [c]
        let num := is_num buf2
        if num || decide ('a' ≤ c ∧ c ≤ 'z') || decide ('A' ≤ c ∧ c ≤ 'Z')
            || decide ('0' ≤ c ∧ c ≤ '9') || c == '_' || c == '$' then
          if was_num && !num && !(buf2.head? == some '0') then
            parseLoop rest (flush out buf) [c]
          else parseLoop rest out buf2
        else if c == '.' then .error ParseError.DisallowedDecimal
        else .error (ParseError.DisallowedChar c)

/-- `parse` from `parser.rs` (the tokenizer). -/
def parse (input : String) : Except ParseError (List Token) :=
  parseLoop input.data [] []

/-- `CalcError` from `calculator.rs`. -/
inductive CalcError
  | DivideByZero
  | ExpectedEOF (t : Token)
  | IncorrectArguments (expected got : ℕ)
  | InvalidSyntax
  | NotAPositive
  | NotAPrimitive (name : String)
  | NotAWhole
  | ParseError (e : ParseError)
  | SeparatorInDef
  | TooDeep
  | UnclosedParen
  | UnknownFunction (name : String)
  | UnknownVariable (name : String)
deriving DecidableEq, Repr

/-- `require_whole` from `calculator.rs`: `num.with_scale(0) == num`
under the crate's value equality. -/
def require_whole (num : BigDecimal) : Except CalcError Unit :=
  if (num.with_scale 0).eqv num then .ok () else .error CalcError.NotAWhole

/-- `require_positive` from `calculator.rs`: only `Sign::Minus` fails. -/
def require_positive (num : BigDecimal) : Except CalcError Unit :=
  if num.sign = -1 then .error CalcError.NotAPositive else .ok ()

/-- The recursion of `factorial` from `calculator.rs`.  The source counts
`times` upward and fails at `u8::MAX`; we carry the remaining budget
`255 - times` so the recursion is structural: budget 0 is exactly
`times == u8::MAX`. -/
def factGo : ℕ → BigDecimal → Option BigDecimal → Except CalcError BigDecimal
  | 0, _, _ => .error CalcError.TooDeep
  | fuel + 1, num, acc => do
    require_whole num
    require_positive num
    if num.isZero then pure (acc.getD BigDecimal.one)
    else
      let acc1 := (acc.getD BigDecimal.one).mul num
      factGo fuel (num.sub BigDecimal.one) (some acc1)

/-- `factorial` from `calculator.rs` (`times` is a `u8` in the source,
so it is at most 255). -/
def factorial (num : BigDecimal) (acc : Option BigDecimal) (times : ℕ) :
    Except CalcError BigDecimal :=
  factGo (255 - times) num acc

/-- The recursion of `pow` from `calculator.rs`, with the same
budget-for-counter transcription as `factGo`.  Note the source's even
branch multiplies the accumulator by `num * num` while only halving the
exponent and leaving the base unchanged. -/
def powGo : ℕ → BigDecimal → BigDecimal → Option BigDecimal → Except CalcError BigDecimal
  | 0, _, _, _ => .error CalcError.TooDeep
  | fuel + 1, num, power, acc => do
    require_positive num
    require_whole power
    if power.sign = 0 then pure (acc.getD num)
    else if power.sign = 1 then
      let one := BigDecimal.one
      let two := BigDecimal.ofInt 2
      if (power.rem two).isZero then
        powGo fuel num (power.div two) (some (((acc.getD one).mul num).mul num))
      else
        powGo fuel num (power.sub one) (some ((acc.getD one).mul num))
    else
      powGo fuel (BigDecimal.one.div num) power.abs acc

/-- `pow` from `calculator.rs` (`times` is a `u8` in the source, so it is
at most 255). -/
def pow (num power : BigDecimal) (acc : Option BigDecimal) (times : ℕ) :
    Except CalcError BigDecimal :=
  powGo (255 - times) num power acc

/-- Models the external `bigdecimal` crate's `ToPrimitive::to_i64`:
truncate the fractional digits, then range-check against `i64`. -/
def to_i64 (q : BigDecimal) : Option ℤ :=
  let t := q.toBigInt
  if -(2 ^ 63) ≤ t ∧ t < 2 ^ 63 then some t else none

/-- Models the external `bigdecimal` crate's `ToPrimitive::to_usize` on a
64-bit machine: truncate the fractional digits, then range-check against
`usize`. -/
def to_usize (q : BigDecimal) : Option ℕ :=
  let t := q.toBigInt
  if 0 ≤ t ∧ t < 2 ^ 64 then some t.toNat else none

/-- The two maps the `Context` of `calculator.rs` borrows mutably:
`variables` and `functions` in the source (`variables` is reserved in
Lean, so the fields are `vars` and `funcs`). -/
structure Env where
  vars : String → Option BigDecimal
  funcs : String → Option (List Token)

/-- The empty environment: a fresh session. -/
def Env.empty : Env := ⟨fun _ => none, fun _ => none⟩

/-- `HashMap::insert` on the variables map. -/
def Env.insertVar (st : Env) (key : String) (val : BigDecimal) : Env :=
  { st with vars := fun s => if s = key then some val else st.vars s }

/-- `HashMap::remove` on the variables map. -/
def Env.removeVar (st : Env) (key : String) : Env :=
  { st with vars := fun s => if s = key then none else st.vars s }

/-- `HashMap::insert` on the functions map. -/
def Env.insertFn (st : Env) (key : String) (body : List Token) : Env :=
  { st with funcs := fun s => if s = key then some body else st.funcs s }

/-- The synthetic positional-argument variable name built in
`calc_paren`: `'$'` followed by the 1-based index. -/
def argName (i : ℕ) : String := "$" ++ toString i

/-- The argument-binding loop of `calc_paren`:
`for (i, arg) in args.into_iter().enumerate()` inserts `$i+1 ↦ arg`.
Called with `i = 0`. -/
def insert_args : Env → ℕ → List BigDecimal → Env
  | st, _, [] => st
  | st, i, arg :: rest => insert_args (st.insertVar (argName (i + 1)) arg) (i + 1) rest

/-- The cleanup loop of `calc_paren`: `for i in 1..len+1` removes `$i`. -/
def remove_args (st : Env) (len : ℕ) : Env :=
  (List.range len).foldl (fun st i => st.removeVar (argName (i + 1))) st

/-- Result of one evaluator function producing an `α`: `none` when the
structural fuel of the embedding is exhausted (never with enough fuel;
the source recurses natively), otherwise the `Result` value of the
source together with the mutable state it leaves behind: the environment
and the unconsumed tokens. -/
abbrev ResA (α : Type) := Option (Except CalcError α × Env × List Token)

/-- The result of a numeric evaluator function. -/
abbrev Res := ResA BigDecimal

/-- The `?` operator of the source: propagate errors (keeping the state
at the failure point), continue on success. -/
def bindRes {α β : Type} (r : ResA α) (f : α → Env → List Token → ResA β) : ResA β :=
  match r with
  | none => none
  | some (.error e, st, ts) => some (.error e, st, ts)
  | some (.ok v, st, ts) => f v st ts

/-- The `to_primitive!` macro of `calculator.rs` instantiated at `to_i64`:
continue with the primitive, or return `Err(NotAPrimitive("i64"))`. -/
def to_primitive_i64 (q : BigDecimal) (st : Env) (ts : List Token) (f : ℤ → Res) : Res :=
  match to_i64 q with
  | none => some (.error (CalcError.NotAPrimitive "i64"), st, ts)
  | some p => f p

/-- The `to_primitive!` macro of `calculator.rs` instantiated at
`to_usize`. -/
def to_primitive_usize (q : BigDecimal) (st : Env) (ts : List Token) (f : ℕ → Res) : Res :=
  match to_usize q with
  | none => some (.error (CalcError.NotAPrimitive "usize"), st, ts)
  | some p => f p

/-- The `?` operator applied to a `Result<(), CalcError>`
(`require_whole(..)?`). -/
def try_unit (r : Except CalcError Unit) (st : Env) (ts : List Token) (f : Unit → Res) : Res :=
  match r with
  | .error e => some (.error e, st, ts)
  | .ok u => f u

/-- Returning a `Result<BigDecimal, CalcError>` directly from the
evaluator (`return pow(..)`, `return factorial(..)`). -/
def lift_exc (r : Except CalcError BigDecimal) (st : Env) (ts : List Token) : Res :=
  match r with
  | .ok v => some (.ok v, st, ts)
  | .error e => some (.error e, st, ts)

/-- A `match` on an optional value (the environment lookups). -/
def opt_case {α : Type} (o : Option α) (e : Res) (f : α → Res) : Res :=
  match o with
  | none => e
  | some x => f x

/-- Sequencing on a fuelled result whose `Result` value the source keeps
(`let val = calculate(..)`): only fuel exhaustion propagates. -/
def run_case {α : Type} (r : ResA α) (f : Except CalcError α × Env × List Token → Res) : Res :=
  match r with
  | none => none
  | some x => f x

/-- The function-body collection loop inside `get_number`'s `VarAssign`
arm: consume tokens tracking parenthesis depth (starting at 1), failing
on a top-level separator, on end of input, and at depth `u8::MAX`;
returns the collected body and the remaining tokens. -/
def collect_fn_tokens : List Token → List Token → ℕ → Except CalcError (List Token × List Token)
  | [], _, _ => .error CalcError.UnclosedParen
  | t :: rest, acc, depth =>
    if t = Token.Separator ∧ depth = 1 then .error CalcError.SeparatorInDef
    else
      let depth1 := if t = Token.ParenOpen then depth + 1
        else if t = Token.ParenClose then depth - 1 else depth
      let acc1 := acc ++ [t]
      if depth1 = 0 then .ok (acc1, rest)
      else if depth1 = 255 then .error CalcError.TooDeep
      else collect_fn_tokens rest acc1 depth1

mutual

/-- `calculate` from `calculator.rs`: depth guard, xor level, and the
trailing-token check (`ExpectedEOF` at top level; a `)` or `,` is left
for the caller inside a nested context). -/
def calculate : ℕ → Env → ℕ → List Token → Res
  | 0, _, _, _ => none
  | fuel + 1, st, level, tokens =>
    if level = 255 then some (.error CalcError.TooDeep, st, tokens)
    else bindRes (calc_level2 fuel st level tokens) fun expr1 st tokens =>
      match tokens with
      | Token.Xor :: rest =>
        bindRes (calculate fuel st level rest) fun expr2 st rest =>
          to_primitive_i64 expr1 st rest fun p1 =>
            to_primitive_i64 expr2 st rest fun p2 =>
              some (.ok (BigDecimal.ofInt (Int.xor p1 p2)), st, rest)
      | Token.ParenClose :: rest =>
        if level ≠ 0 then some (.ok expr1, st, Token.ParenClose :: rest)
        else some (.error (CalcError.ExpectedEOF Token.ParenClose), st, rest)
      | Token.Separator :: rest =>
        if level ≠ 0 then some (.ok expr1, st, Token.Separator :: rest)
        else some (.error (CalcError.ExpectedEOF Token.Separator), st, rest)
      | t :: rest => some (.error (CalcError.ExpectedEOF t), st, rest)
      | [] => some (.ok expr1, st, [])
  termination_by structural fuel => fuel

/-- `calc_level2` from `calculator.rs`: bitwise or. -/
def calc_level2 : ℕ → Env → ℕ → List Token → Res
  | 0, _, _, _ => none
  | fuel + 1, st, level, tokens =>
    bindRes (calc_level3 fuel st level tokens) fun expr1 st tokens =>
      match tokens with
      | Token.Or :: rest =>
        bindRes (calc_level2 fuel st level rest) fun expr2 st rest =>
          to_primitive_i64 expr1 st rest fun p1 =>
            to_primitive_i64 expr2 st rest fun p2 =>
              some (.ok (BigDecimal.ofInt (Int.lor p1 p2)), st, rest)
      | _ => some (.ok expr1, st, tokens)
  termination_by structural fuel => fuel

/-- `calc_level3` from `calculator.rs`: bitwise and. -/
def calc_level3 : ℕ → Env → ℕ → List Token → Res
  | 0, _, _, _ => none
  | fuel + 1, st, level, tokens =>
    bindRes (calc_level4 fuel st level tokens) fun expr1 st tokens =>
      match tokens with
      | Token.And :: rest =>
        bindRes (calc_level3 fuel st level rest) fun expr2 st rest =>
          to_primitive_i64 expr1 st rest fun p1 =>
            to_primitive_i64 expr2 st rest fun p2 =>
              some (.ok (BigDecimal.ofInt (Int.land p1 p2)), st, rest)
      | _ => some (.ok expr1, st, tokens)
  termination_by structural fuel => fuel

/-- `calc_level4` from `calculator.rs`: the shift level; the loop is
`calc_level4_loop`. -/
def calc_level4 : ℕ → Env → ℕ → List Token → Res
  | 0, _, _, _ => none
  | fuel + 1, st, level, tokens =>
    bindRes (calc_level5 fuel st level tokens) fun expr1 st tokens =>
      calc_level4_loop fuel st level tokens expr1
  termination_by structural fuel => fuel

/-- The `loop` of `calc_level4`: left-associative `<<`/`>>`.  The right
operand is evaluated and coerced to `usize` before the left operand's
wholeness check; the exact shift is `BigDecimal::new(int << p, 0)`
(respectively an arithmetic right shift, i.e. floor division). -/
def calc_level4_loop : ℕ → Env → ℕ → List Token → BigDecimal → Res
  | 0, _, _, _, _ => none
  | fuel + 1, st, level, tokens, expr1 =>
    match tokens with
    | Token.BitshiftLeft :: rest =>
      bindRes (calc_level5 fuel st level rest) fun expr2 st rest =>
        to_primitive_usize expr2 st rest fun p2 =>
          try_unit (require_whole expr1) st rest fun _ =>
            calc_level4_loop fuel st level rest
              (BigDecimal.new (expr1.toBigInt * 2 ^ p2) 0)
    | Token.BitshiftRight :: rest =>
      bindRes (calc_level5 fuel st level rest) fun expr2 st rest =>
        to_primitive_usize expr2 st rest fun p2 =>
          try_unit (require_whole expr1) st rest fun _ =>
            calc_level4_loop fuel st level rest
              (BigDecimal.new (Int.fdiv expr1.toBigInt (2 ^ p2)) 0)
    | _ => some (.ok expr1, st, tokens)
  termination_by structural fuel => fuel

/-- `calc_level5` from `calculator.rs`: the additive level. -/
def calc_level5 : ℕ → Env → ℕ → List Token → Res
  | 0, _, _, _ => none
  | fuel + 1, st, level, tokens =>
    bindRes (calc_level6 fuel st level tokens) fun expr1 st tokens =>
      calc_level5_loop fuel st level tokens expr1
  termination_by structural fuel => fuel

/-- The `loop` of `calc_level5`: left-associative `+`/`-`. -/
def calc_level5_loop : ℕ → Env → ℕ → List Token → BigDecimal → Res
  | 0, _, _, _, _ => none
  | fuel + 1, st, level, tokens, expr1 =>
    match tokens with
    | Token.Add :: rest =>
      bindRes (calc_level6 fuel st level rest) fun expr2 st rest =>
        calc_level5_loop fuel st level rest (expr1.add expr2)
    | Token.Sub :: rest =>
      bindRes (calc_level6 fuel st level rest) fun expr2 st rest =>
        calc_level5_loop fuel st level rest (expr1.sub expr2)
    | _ => some (.ok expr1, st, tokens)
  termination_by structural fuel => fuel

/-- `calc_level6` from `calculator.rs`: the multiplicative level. -/
def calc_level6 : ℕ → Env → ℕ → List Token → Res
  | 0, _, _, _ => none
  | fuel + 1, st, level, tokens =>
    bindRes (calc_level7 fuel st level tokens) fun expr1 st tokens =>
      calc_level6_loop fuel st level tokens expr1
  termination_by structural fuel => fuel

/-- The `loop` of `calc_level6`: left-associative `*`, `/`, `%`; `/` and
`%` check the right operand for zero before dividing; `%` is the integer
remainder of the truncated operands, at scale 0. The source computes
`expr1.to_bigint().unwrap() % expr2.to_bigint().unwrap()`: the
`DivideByZero` guard tests the decimal value, so a non-zero right operand
whose truncated integer part is zero (`|expr2| < 1`) reaches a `BigInt`
remainder by zero, which panics in `num-bigint`. The embedding renders
that panic as `none` — no result is produced, at any fuel; theorems
separate this from fuel exhaustion by quantifying over the fuel or by
exhibiting a successful neighbouring evaluation at the same fuel. -/
def calc_level6_loop : ℕ → Env → ℕ → List Token → BigDecimal → Res
  | 0, _, _, _, _ => none
  | fuel + 1, st, level, tokens, expr1 =>
    match tokens with
    | Token.Mul :: rest =>
      bindRes (calc_level7 fuel st level rest) fun expr2 st rest =>
        calc_level6_loop fuel st level rest (expr1.mul expr2)
    | Token.Div :: rest =>
      bindRes (calc_level7 fuel st level rest) fun expr2 st rest =>
        if expr2.isZero then some (.error CalcError.DivideByZero, st, rest)
        else calc_level6_loop fuel st level rest (expr1.div expr2)
    | Token.Rem :: rest =>
      bindRes (calc_level7 fuel st level rest) fun expr2 st rest =>
        if expr2.isZero then some (.error CalcError.DivideByZero, st, rest)
        else if expr2.toBigInt = 0 then none
        else calc_level6_loop fuel st level rest
          (BigDecimal.new (Int.tmod expr1.toBigInt expr2.toBigInt) 0)
    | _ => some (.ok expr1, st, tokens)
  termination_by structural fuel => fuel

/-- `calc_level7` from `calculator.rs`: the exponent level,
right-associative, delegating to `pow`. -/
def calc_level7 : ℕ → Env → ℕ → List Token → Res
  | 0, _, _, _ => none
  | fuel + 1, st, level, tokens =>
    bindRes (calc_level8 fuel st level tokens) fun expr1 st tokens =>
      match tokens with
      | Token.Pow :: rest =>
        bindRes (calc_level7 fuel st level rest) fun expr2 st rest =>
          lift_exc (pow expr1 expr2 none 0) st rest
      | _ => some (.ok expr1, st, tokens)
  termination_by structural fuel => fuel

/-- `calc_level8` from `calculator.rs`: the postfix factorial level. -/
def calc_level8 : ℕ → Env → ℕ → List Token → Res
  | 0, _, _, _ => none
  | fuel + 1, st, level, tokens =>
    bindRes (calc_level9 fuel st level tokens) fun expr st tokens =>
      match tokens with
      | Token.Factorial :: rest => lift_exc (factorial expr none 0) st rest
      | _ => some (.ok expr, st, tokens)
  termination_by structural fuel => fuel

/-- `calc_level9` from `calculator.rs`: unary bitwise not, else fall
through to `calc_paren`. -/
def calc_level9 : ℕ → Env → ℕ → List Token → Res
  | 0, _, _, _ => none
  | fuel + 1, st, level, tokens =>
    match tokens with
    | Token.Not :: rest =>
      bindRes (calc_level9 fuel st level rest) fun expr st rest =>
        to_primitive_i64 expr st rest fun p =>
          some (.ok (BigDecimal.ofInt (Int.lnot p)), st, rest)
    | _ => calc_paren fuel st level tokens none
  termination_by structural fuel => fuel

/-- `calc_paren` from `calculator.rs`: parenthesised groups, argument
lists and named calls (`abs`, `pow`, user functions).  The
`args.is_empty()`/`args.remove(0)` tail of the source is rendered as a
match on the argument list in each arm that reaches it (the arity check
`usage!` has already pinned the length there). -/
def calc_paren : ℕ → Env → ℕ → List Token → Option String → Res
  | 0, _, _, _, _ => none
  | fuel + 1, st, level, tokens, name =>
    match tokens with
    | Token.ParenOpen :: rest =>
      bindRes
        (if rest.head? = some Token.ParenClose then some (.ok ([] : List BigDecimal), st, rest)
         else parse_args fuel st (level + 1) rest [])
        fun args st rest =>
        match rest with
        | Token.ParenClose :: rest =>
          match name with
          | some nm =>
            if nm = "abs" then
              match args with
              | [a] => some (.ok a.abs, st, rest)
              | _ => some (.error (CalcError.IncorrectArguments 1 args.length), st, rest)
            else if nm = "pow" then
              match args with
              | [a, b] => lift_exc (pow a b none 0) st rest
              | _ => some (.error (CalcError.IncorrectArguments 2 args.length), st, rest)
            else call_user_function fuel st level nm args rest
          | none =>
            match args with
            | [a] => some (.ok a, st, rest)
            | _ => some (.error (CalcError.IncorrectArguments 1 args.length), st, rest)
        | _ :: rest2 => some (.error CalcError.UnclosedParen, st, rest2)
        | [] => some (.error CalcError.UnclosedParen, st, [])
    | _ =>
      match name with
      | none =>
        match tokens with
        | Token.BlockName nm :: rest => calc_paren fuel st level rest (some nm)
        | _ => get_number fuel st level tokens
      | some _ => get_number fuel st level tokens
  termination_by structural fuel => fuel

/-- The argument-list loop of `calc_paren`: one expression, then further
`,`-separated expressions, parsed with the level already incremented. -/
def parse_args : ℕ → Env → ℕ → List Token → List BigDecimal → ResA (List BigDecimal)
  | 0, _, _, _, _ => none
  | fuel + 1, st, level, tokens, acc =>
    bindRes (calculate fuel st level tokens) fun v st ts =>
      match ts with
      | Token.Separator :: rest => parse_args fuel st level rest (acc ++ [v])
      | _ => some (.ok (acc ++ [v]), st, ts)
  termination_by structural fuel => fuel

/-- The user-function arm of `calc_paren`: look the body up, bind the
positional `$i` variables, evaluate the stored body as a fresh token
stream with the depth counter incremented, then unconditionally remove
`$1`..`$len` — whether the body evaluation succeeded or failed — and
return its result with the caller's remaining tokens. -/
def call_user_function : ℕ → Env → ℕ → String → List BigDecimal → List Token → Res
  | 0, _, _, _, _, _ => none
  | fuel + 1, st, level, name, args, tokens =>
    opt_case (st.funcs name)
      (some (.error (CalcError.UnknownFunction name), st, tokens))
      fun body =>
        run_case (calculate fuel (insert_args st 0 args) (level + 1) body)
          fun r => some (r.1, remove_args r.2.1 args.length, tokens)
  termination_by structural fuel => fuel

/-- `get_number` from `calculator.rs`: number literal, unary minus,
variable assignment / function definition, variable read. -/
def get_number : ℕ → Env → ℕ → List Token → Res
  | 0, _, _, _ => none
  | fuel + 1, st, level, tokens =>
    match tokens with
    | Token.Num num :: rest => some (.ok num, st, rest)
    | Token.Sub :: rest =>
      bindRes (calc_paren fuel st level rest none) fun v st rest =>
        some (.ok v.neg, st, rest)
    | Token.VarAssign name :: rest =>
      match rest with
      | Token.ParenOpen :: rest2 =>
        match collect_fn_tokens rest2 [] 1 with
        | .error e => some (.error e, st, rest2)
        | .ok (fnTokens, rest3) =>
          some (.ok BigDecimal.zero, st.insertFn name fnTokens, rest3)
      | _ =>
        bindRes (calculate fuel st level rest) fun v st rest =>
          some (.ok BigDecimal.zero, st.insertVar name v, rest)
    | Token.VarGet name :: rest =>
      opt_case (st.vars name)
        (some (.error (CalcError.UnknownVariable name), st, rest))
        fun v => some (.ok v, st, rest)
    | _ :: rest => some (.error CalcError.InvalidSyntax, st, rest)
    | [] => some (.error CalcError.InvalidSyntax, st, [])
  termination_by structural fuel => fuel

end

/-- `parse_and_calc` from `lib.rs`: tokenize, wrap parse errors, then
evaluate from a fresh top-level context (level 0) against the shared
environment; returns the result together with the mutated environment. -/
def parse_and_calc (fuel : ℕ) (input : String) (st : Env) :
    Option (Except CalcError BigDecimal × Env) :=
  match parse input with
  | .error e => some (.error (CalcError.ParseError e), st)
  | .ok tokens =>
    match calculate fuel st 0 tokens with
    | none => none
    | some (val, st2, _) => some (val, st2)

/-- The numeric result of a `parse_and_calc` run, discarding the
environment (whose function-typed maps have no decidable equality). -/
def result_of (r : Option (Except CalcError BigDecimal × Env)) :
    Option (Except CalcError BigDecimal) :=
  r.map Prod.fst

/-- The environment a `parse_and_calc` run leaves behind. -/
def env_of (r : Option (Except CalcError BigDecimal × Env)) : Option Env :=
  r.map Prod.snd

/-- Whether a run succeeded with the given numeric value (under the
crate's value equality, which ignores the scale representation). -/
def ok_val (r : Option (Except CalcError BigDecimal × Env)) (target : BigDecimal) : Bool :=
  match r with
  | some (.ok v, _) => v.eqv target
  | _ => false

deriving instance DecidableEq for Except

/-- The numeric result of one evaluator function, discarding environment
and tokens. -/
def res1 (r : Res) : Option (Except CalcError BigDecimal) :=
  r.map Prod.fst

/-- The token body that `f=(f(1))` stores under `f`: everything after the
defining `(` up to and including the matching `)`. -/
def selfBody : List Token :=
  [Token.BlockName "f", Token.ParenOpen, Token.Num (BigDecimal.ofInt 1),
   Token.ParenClose, Token.ParenClose]

/-- An environment with the identity-like function `f = ($1)` defined and
a pre-existing binding of the synthetic argument variable `$1` (as an
enclosing call would have installed). -/
def stW : Env :=
  (Env.empty.insertFn "f" [Token.VarGet "$1", Token.ParenClose]).insertVar
    "$1" (BigDecimal.ofInt 99)

end MathTest

namespace MathTest

/-- C1: the spec says `b**p` is exactly `b^p` (`evaluate("2**10")==1024`),
matching `pow`'s own doc comment; but the source's "binary exponentiation"
squares into the accumulator while halving the exponent without squaring
the base, so `pow(2,10)` yields 256 (and `pow(2,2)=8`, `pow(2,0)=2`), not
1024.  The policy parts hold: a negative whole exponent takes the
reciprocal first (`2**-1 = 0.5`), a negative base fails `NotAPositive`,
a non-whole exponent fails `NotAWhole`. -/
theorem C1_pow_miscomputes :
    pow (BigDecimal.ofInt 2) (BigDecimal.ofInt 10) none 0 = .ok (BigDecimal.ofInt 256)
    ∧ res1 (calculate 40 Env.empty 0
        [Token.Num (BigDecimal.ofInt 2), Token.Pow, Token.Num (BigDecimal.ofInt 10)]) =
      some (.ok (BigDecimal.ofInt 256))
    ∧ pow (BigDecimal.ofInt 2) (BigDecimal.ofInt 2) none 0 = .ok (BigDecimal.ofInt 8)
    ∧ pow (BigDecimal.ofInt 2) (BigDecimal.ofInt 0) none 0 = .ok (BigDecimal.ofInt 2)
    ∧ (BigDecimal.ofInt 256).eqv (BigDecimal.ofInt 1024) = false
    ∧ pow (BigDecimal.ofInt 2) (BigDecimal.new (-1) 0) none 0 = .ok (BigDecimal.new 5 1)
    ∧ pow (BigDecimal.new (-3) 0) (BigDecimal.ofInt 2) none 0 = .error CalcError.NotAPositive
    ∧ pow (BigDecimal.ofInt 2) (BigDecimal.new 25 1) none 0 = .error CalcError.NotAWhole := by
  decide

/-- C2 counterexample: in this snapshot `=` rejects an empty buffer, and
after `f(a,b)` the buffer is empty, so the spec's definition example
`f(a,b)=a+b` fails to tokenize with `DisallowedVariable("")` instead of
storing a function. -/
theorem C2_spec_syntax_rejected :
    parse "f(a,b)=a+b" = .error (ParseError.DisallowedVariable "") := by decide

/-- C2 amended: a definition is written `name=(body)`; `f=($1+$2)`
succeeds (returning zero), stores the body tokens unevaluated under `f`,
a subsequent `f(2,3)` in the same environment returns 5, and a later
`f=($1)` replaces the stored body. -/
theorem C2_definition_store_call_redefine :
    result_of (parse_and_calc 200 "f=($1+$2)" Env.empty) = some (.ok BigDecimal.zero)
    ∧ (env_of (parse_and_calc 200 "f=($1+$2)" Env.empty)).map (fun e => e.funcs "f") =
      some (some [Token.VarGet "$1", Token.Add, Token.VarGet "$2", Token.ParenClose])
    ∧ result_of ((env_of (parse_and_calc 200 "f=($1+$2)" Env.empty)).bind
        (parse_and_calc 200 "f(2,3)")) = some (.ok (BigDecimal.ofInt 5))
    ∧ (env_of ((env_of (parse_and_calc 200 "f=($1+$2)" Env.empty)).bind
        (parse_and_calc 200 "f=($1)"))).map (fun e => e.funcs "f") =
      some (some [Token.VarGet "$1", Token.ParenClose]) := by
  decide

/-- C4: `x=5` evaluates to zero, inserts `x ↦ 5` into the shared
variables map, a subsequent `x+1` in the same environment returns 6, and
the function-definition form also evaluates to zero. -/
theorem C4_assignment_zero_and_persistence :
    result_of (parse_and_calc 100 "x=5" Env.empty) = some (.ok BigDecimal.zero)
    ∧ (env_of (parse_and_calc 100 "x=5" Env.empty)).map (fun e => e.vars "x") =
      some (some (BigDecimal.ofInt 5))
    ∧ result_of ((env_of (parse_and_calc 100 "x=5" Env.empty)).bind
        (parse_and_calc 100 "x+1")) = some (.ok (BigDecimal.ofInt 6))
    ∧ result_of (parse_and_calc 100 "g=(1)" Env.empty) = some (.ok BigDecimal.zero) := by
  decide

/-- C6: for every left operand `a`, `a/0` and `a%0` fail with
`DivideByZero` (the zero check on the evaluated right operand precedes
the division/remainder), in particular `5/0` and `5%0`. -/
theorem C6_divide_modulo_by_zero :
    (∀ a : BigDecimal,
      res1 (calculate 40 Env.empty 0
        [Token.Num a, Token.Div, Token.Num (BigDecimal.ofInt 0)]) =
      some (.error CalcError.DivideByZero))
    ∧ (∀ a : BigDecimal,
      res1 (calculate 40 Env.empty 0
        [Token.Num a, Token.Rem, Token.Num (BigDecimal.ofInt 0)]) =
      some (.error CalcError.DivideByZero))
    ∧ result_of (parse_and_calc 100 "5/0" Env.empty) = some (.error CalcError.DivideByZero)
    ∧ result_of (parse_and_calc 100 "5%0" Env.empty) = some (.error CalcError.DivideByZero) :=
  ⟨fun _ => rfl, fun _ => rfl, by decide, by decide⟩

/-- C8 counterexample: the tokenizer also rejects an assignment target
that starts with the digit `0` — the buffer `0x` is non-empty, is not a
number, and does not start with `$`, yet `0x=1` fails with
`DisallowedVariable("0x")`. -/
theorem C8_zero_prefixed_name_rejected :
    parse "0x=1" = .error (ParseError.DisallowedVariable "0x")
    ∧ ("0x".data.isEmpty || is_num "0x".data || ("0x".data.head? == some '$')) = false := by
  decide

/-- C8 amended: on `=` the tokenizer fails with `DisallowedVariable`
exactly when the buffer is empty, is numeric, starts with `$`, or starts
with `0`; in every other case it emits a `VarAssign` token carrying the
buffer. -/
theorem C8_assign_target_rule (rest : List Char) (out : List Token) (buf : List Char) :
    parseLoop ('=' :: rest) out buf =
      if buf.isEmpty || is_num buf || buf.head? == some '$' || buf.head? == some '0' then
        .error (ParseError.DisallowedVariable (String.mk buf))
      else parseLoop rest (out ++ [Token.VarAssign (String.mk buf)]) [] := rfl

/-- C5 counterexample: the factorial recursion counts its `u8` depth
counter up by one per multiplication, so `255!` hits the ceiling and
fails with `TooDeep` instead of returning 255!. -/
theorem C5_factorial_255_too_deep :
    result_of (parse_and_calc 100 "255!" Env.empty) = some (.error CalcError.TooDeep) := by
  decide

end MathTest

namespace MathTest

/-! Case equations for the result combinators. -/

theorem bindRes_ok {α β : Type} (v : α) (st : Env) (ts : List Token)
    (f : α → Env → List Token → ResA β) :
    bindRes (some (.ok v, st, ts)) f = f v st ts := rfl

theorem bindRes_err {α β : Type} (e : CalcError) (st : Env) (ts : List Token)
    (f : α → Env → List Token → ResA β) :
    bindRes (some (.error e, st, ts)) f = some (.error e, st, ts) := rfl

theorem lift_exc_ok (v : BigDecimal) (st : Env) (ts : List Token) :
    lift_exc (.ok v) st ts = some (.ok v, st, ts) := rfl

theorem lift_exc_err (e : CalcError) (st : Env) (ts : List Token) :
    lift_exc (.error e) st ts = some (.error e, st, ts) := rfl

theorem opt_case_some {α : Type} (x : α) (e : Res) (f : α → Res) :
    opt_case (some x) e f = f x := rfl

theorem run_case_some {α : Type} (x : Except CalcError α × Env × List Token)
    (f : Except CalcError α × Env × List Token → Res) :
    run_case (some x) f = f x := rfl

/-! One-step unfolding equations for the evaluator. -/

theorem calculate_step (fuel : ℕ) (st : Env) (level : ℕ) (tokens : List Token) :
    calculate (fuel + 1) st level tokens =
      if level = 255 then some (.error CalcError.TooDeep, st, tokens)
      else bindRes (calc_level2 fuel st level tokens) fun expr1 st tokens =>
        match tokens with
        | Token.Xor :: rest =>
          bindRes (calculate fuel st level rest) fun expr2 st rest =>
            to_primitive_i64 expr1 st rest fun p1 =>
              to_primitive_i64 expr2 st rest fun p2 =>
                some (.ok (BigDecimal.ofInt (Int.xor p1 p2)), st, rest)
        | Token.ParenClose :: rest =>
          if level ≠ 0 then some (.ok expr1, st, Token.ParenClose :: rest)
          else some (.error (CalcError.ExpectedEOF Token.ParenClose), st, rest)
        | Token.Separator :: rest =>
          if level ≠ 0 then some (.ok expr1, st, Token.Separator :: rest)
          else some (.error (CalcError.ExpectedEOF Token.Separator), st, rest)
        | t :: rest => some (.error (CalcError.ExpectedEOF t), st, rest)
        | [] => some (.ok expr1, st, []) := rfl

theorem calc_level2_step (fuel : ℕ) (st : Env) (level : ℕ) (tokens : List Token) :
    calc_level2 (fuel + 1) st level tokens =
      bindRes (calc_level3 fuel st level tokens) fun expr1 st tokens =>
        match tokens with
        | Token.Or :: rest =>
          bindRes (calc_level2 fuel st level rest) fun expr2 st rest =>
            to_primitive_i64 expr1 st rest fun p1 =>
              to_primitive_i64 expr2 st rest fun p2 =>
                some (.ok (BigDecimal.ofInt (Int.lor p1 p2)), st, rest)
        | _ => some (.ok expr1, st, tokens) := rfl

theorem calc_level3_step (fuel : ℕ) (st : Env) (level : ℕ) (tokens : List Token) :
    calc_level3 (fuel + 1) st level tokens =
      bindRes (calc_level4 fuel st level tokens) fun expr1 st tokens =>
        match tokens with
        | Token.And :: rest =>
          bindRes (calc_level3 fuel st level rest) fun expr2 st rest =>
            to_primitive_i64 expr1 st rest fun p1 =>
              to_primitive_i64 expr2 st rest fun p2 =>
                some (.ok (BigDecimal.ofInt (Int.land p1 p2)), st, rest)
        | _ => some (.ok expr1, st, tokens) := rfl

theorem calc_level4_step (fuel : ℕ) (st : Env) (level : ℕ) (tokens : List Token) :
    calc_level4 (fuel + 1) st level tokens =
      bindRes (calc_level5 fuel st level tokens) fun expr1 st tokens =>
        calc_level4_loop fuel st level tokens expr1 := rfl

theorem calc_level5_step (fuel : ℕ) (st : Env) (level : ℕ) (tokens : List Token) :
    calc_level5 (fuel + 1) st level tokens =
      bindRes (calc_level6 fuel st level tokens) fun expr1 st tokens =>
        calc_level5_loop fuel st level tokens expr1 := rfl

theorem calc_level6_step (fuel : ℕ) (st : Env) (level : ℕ) (tokens : List Token) :
    calc_level6 (fuel + 1) st level tokens =
      bindRes (calc_level7 fuel st level tokens) fun expr1 st tokens =>
        calc_level6_loop fuel st level tokens expr1 := rfl

theorem calc_level6_loop_rem_step (fuel : ℕ) (st : Env) (level : ℕ) (rest : List Token)
    (expr1 : BigDecimal) :
    calc_level6_loop (fuel + 1) st level (Token.Rem :: rest) expr1 =
      bindRes (calc_level7 fuel st level rest) (fun expr2 st rest =>
        if expr2.isZero then some (.error CalcError.DivideByZero, st, rest)
        else if expr2.toBigInt = 0 then none
        else calc_level6_loop fuel st level rest
          (BigDecimal.new (Int.tmod expr1.toBigInt expr2.toBigInt) 0)) := rfl

theorem calc_level6_loop_nil (fuel : ℕ) (st : Env) (level : ℕ) (expr1 : BigDecimal) :
    calc_level6_loop (fuel + 1) st level [] expr1 = some (.ok expr1, st, []) := rfl

theorem calc_level7_step (fuel : ℕ) (st : Env) (level : ℕ) (tokens : List Token) :
    calc_level7 (fuel + 1) st level tokens =
      bindRes (calc_level8 fuel st level tokens) fun expr1 st tokens =>
        match tokens with
        | Token.Pow :: rest =>
          bindRes (calc_level7 fuel st level rest) fun expr2 st rest =>
            lift_exc (pow expr1 expr2 none 0) st rest
        | _ => some (.ok expr1, st, tokens) := rfl

theorem calc_level8_step (fuel : ℕ) (st : Env) (level : ℕ) (tokens : List Token) :
    calc_level8 (fuel + 1) st level tokens =
      bindRes (calc_level9 fuel st level tokens) fun expr st tokens =>
        match tokens with
        | Token.Factorial :: rest => lift_exc (factorial expr none 0) st rest
        | _ => some (.ok expr, st, tokens) := rfl

theorem calc_level9_blockname (fuel : ℕ) (st : Env) (lvl : ℕ) (nm : String)
    (rest : List Token) :
    calc_level9 (fuel + 1) st lvl (Token.BlockName nm :: rest) =
      calc_paren fuel st lvl (Token.BlockName nm :: rest) none := rfl

theorem calc_paren_blockname (fuel : ℕ) (st : Env) (lvl : ℕ) (nm : String)
    (rest : List Token) :
    calc_paren (fuel + 1) st lvl (Token.BlockName nm :: rest) none =
      calc_paren fuel st lvl rest (some nm) := rfl

theorem calc_paren_call_args (fuel : ℕ) (st : Env) (lvl : ℕ) (nm : String)
    (v : BigDecimal) (rest : List Token) :
    calc_paren (fuel + 1) st lvl (Token.ParenOpen :: Token.Num v :: rest) (some nm) =
      bindRes (parse_args fuel st (lvl + 1) (Token.Num v :: rest) [])
        (fun args st rest =>
          match rest with
          | Token.ParenClose :: rest =>
            if nm = "abs" then
              match args with
              | [a] => some (.ok a.abs, st, rest)
              | _ => some (.error (CalcError.IncorrectArguments 1 args.length), st, rest)
            else if nm = "pow" then
              match args with
              | [a, b] => lift_exc (pow a b none 0) st rest
              | _ => some (.error (CalcError.IncorrectArguments 2 args.length), st, rest)
            else call_user_function fuel st lvl nm args rest
          | _ :: rest2 => some (.error CalcError.UnclosedParen, st, rest2)
          | [] => some (.error CalcError.UnclosedParen, st, [])) := rfl

theorem parse_args_step (fuel : ℕ) (st : Env) (level : ℕ) (tokens : List Token)
    (acc : List BigDecimal) :
    parse_args (fuel + 1) st level tokens acc =
      bindRes (calculate fuel st level tokens) fun v st ts =>
        match ts with
        | Token.Separator :: rest => parse_args fuel st level rest (acc ++ [v])
        | _ => some (.ok (acc ++ [v]), st, ts) := rfl

theorem call_user_function_step (fuel : ℕ) (st : Env) (level : ℕ) (name : String)
    (args : List BigDecimal) (tokens : List Token) :
    call_user_function (fuel + 1) st level name args tokens =
      opt_case (st.funcs name)
        (some (.error (CalcError.UnknownFunction name), st, tokens))
        (fun body =>
          run_case (calculate fuel (insert_args st 0 args) (level + 1) body)
            fun r => some (r.1, remove_args r.2.1 args.length, tokens)) := rfl

/-! Atom descents: a number literal passes the cascade untouched when the
next token triggers no arm on the way. -/

theorem calc_level7_num_rem (fuel : ℕ) (st : Env) (lvl : ℕ) (v : BigDecimal)
    (rest : List Token) :
    calc_level7 (fuel + 10) st lvl (Token.Num v :: Token.Rem :: rest) =
      some (.ok v, st, Token.Rem :: rest) := rfl

theorem calc_level7_num_nil (fuel : ℕ) (st : Env) (lvl : ℕ) (v : BigDecimal) :
    calc_level7 (fuel + 10) st lvl [Token.Num v] = some (.ok v, st, []) := rfl

theorem calc_level9_num_fact (fuel : ℕ) (st : Env) (lvl : ℕ) (v : BigDecimal) :
    calc_level9 (fuel + 8) st lvl [Token.Num v, Token.Factorial] =
      some (.ok v, st, [Token.Factorial]) := rfl

theorem calc_level2_num_parenclose (fuel : ℕ) (st : Env) (lvl : ℕ) (v : BigDecimal)
    (rest : List Token) :
    calc_level2 (fuel + 12) st lvl (Token.Num v :: Token.ParenClose :: rest) =
      some (.ok v, st, Token.ParenClose :: rest) := rfl

/-! Arithmetic facts about the number model. -/

theorem require_whole_int (z : ℤ) : require_whole ⟨z, 0⟩ = .ok () := by
  simp [require_whole, BigDecimal.with_scale, BigDecimal.eqv, BigDecimal.alignTo]

theorem require_positive_zero : require_positive ⟨0, 0⟩ = .ok () := by
  simp [require_positive, BigDecimal.sign]

theorem require_positive_cast_succ (n : ℕ) : require_positive ⟨(n : ℤ) + 1, 0⟩ = .ok () := by
  simp [require_positive, BigDecimal.sign, Int.sign_eq_neg_one_iff_neg]

theorem whole_mk (z : ℤ) : ((BigDecimal.mk z 0).with_scale 0).eqv (BigDecimal.mk z 0) = true := by
  simp [BigDecimal.with_scale, BigDecimal.eqv, BigDecimal.alignTo]

theorem exc_bind_ok {α β : Type} (a : α) (f : α → Except CalcError β) :
    (Except.ok a : Except CalcError α) >>= f = f a := rfl

/-! The factorial recursion. -/

theorem factGo_ok (n : ℕ) : ∀ (fuel : ℕ) (acc : Option BigDecimal), n < fuel →
    factGo fuel (BigDecimal.ofInt (n : ℤ)) acc =
      .ok ⟨(acc.getD BigDecimal.one).intVal * (Nat.factorial n : ℤ),
           (acc.getD BigDecimal.one).scale⟩ := by
  induction n with
  | zero =>
    intro fuel acc h
    obtain ⟨m, rfl⟩ : ∃ m, fuel = m + 1 := ⟨fuel - 1, by omega⟩
    simp [factGo, BigDecimal.ofInt, require_whole_int, require_positive_zero,
      exc_bind_ok, BigDecimal.isZero, Nat.factorial]
  | succ n ih =>
    intro fuel acc h
    obtain ⟨m, rfl⟩ : ∃ m, fuel = m + 1 := ⟨fuel - 1, by omega⟩
    have hsub : (BigDecimal.mk ((n : ℤ) + 1) 0).sub BigDecimal.one = BigDecimal.ofInt (n : ℤ) := by
      simp [BigDecimal.sub, BigDecimal.alignTo, BigDecimal.one, BigDecimal.ofInt]
    have step : factGo (m + 1) (BigDecimal.ofInt ((n + 1 : ℕ) : ℤ)) acc =
        factGo m (BigDecimal.ofInt (n : ℤ))
          (some ((acc.getD BigDecimal.one).mul ⟨(n : ℤ) + 1, 0⟩)) := by
      rw [← hsub]
      simp [factGo, BigDecimal.ofInt, require_whole_int, require_positive_cast_succ,
        exc_bind_ok, BigDecimal.isZero]
      exact fun h0 => absurd h0 (by omega)
    rw [step, ih m _ (by omega)]
    simp [BigDecimal.mul, Nat.factorial_succ]
    ring

theorem factorial_ok (n : ℕ) (h : n ≤ 254) :
    factorial (BigDecimal.ofInt (n : ℤ)) none 0 = .ok (BigDecimal.ofInt (Nat.factorial n)) := by
  rw [factorial, show (255 : ℕ) - 0 = 255 from rfl, factGo_ok n 255 none (by omega)]
  simp [BigDecimal.one, BigDecimal.ofInt]

end MathTest

namespace MathTest

theorem exc_bind_err {α β : Type} (e : CalcError) (f : α → Except CalcError β) :
    (Except.error e : Except CalcError α) >>= f = Except.error e := rfl

theorem factGo_step (fuel : ℕ) (num : BigDecimal) (acc : Option BigDecimal) :
    factGo (fuel + 1) num acc = (do
      require_whole num
      require_positive num
      if num.isZero then pure (acc.getD BigDecimal.one)
      else factGo fuel (num.sub BigDecimal.one) (some ((acc.getD BigDecimal.one).mul num))) :=
  rfl

/-- C5 amended: for every whole operand 0 ≤ n ≤ 254 the factorial level
returns n! exactly (`5!` = 120); n = 255 already exceeds the `u8` depth
ceiling (see the counterexample theorem).  A negative whole operand fails
`NotAPositive` (`(-1)!`), a non-whole operand fails `NotAWhole`
(`2.5!`). -/
theorem C5_factorial_semantics :
    (∀ (st : Env) (lvl : ℕ) (n : ℕ), n ≤ 254 →
      calc_level8 40 st lvl [Token.Num (BigDecimal.ofInt (n : ℤ)), Token.Factorial] =
        some (.ok (BigDecimal.ofInt (Nat.factorial n)), st, []))
    ∧ (∀ n : ℕ, 0 < n →
      factorial (BigDecimal.ofInt (-(n : ℤ))) none 0 = .error CalcError.NotAPositive)
    ∧ (∀ q : BigDecimal, (q.with_scale 0).eqv q = false →
      factorial q none 0 = .error CalcError.NotAWhole)
    ∧ result_of (parse_and_calc 100 "5!" Env.empty) = some (.ok (BigDecimal.ofInt 120))
    ∧ result_of (parse_and_calc 100 "(-1)!" Env.empty) = some (.error CalcError.NotAPositive)
    ∧ result_of (parse_and_calc 100 "2.5!" Env.empty) = some (.error CalcError.NotAWhole) := by
  refine ⟨?_, ?_, ?_, by decide, by decide, by decide⟩
  · intro st lvl n h
    have h8 : calc_level8 40 st lvl [Token.Num (BigDecimal.ofInt (n : ℤ)), Token.Factorial] =
        bindRes (calc_level9 39 st lvl [Token.Num (BigDecimal.ofInt (n : ℤ)), Token.Factorial])
          fun expr st tokens =>
          match tokens with
          | Token.Factorial :: rest => lift_exc (factorial expr none 0) st rest
          | _ => some (.ok expr, st, tokens) :=
      calc_level8_step 39 st lvl _
    have h9 : calc_level9 39 st lvl [Token.Num (BigDecimal.ofInt (n : ℤ)), Token.Factorial] =
        some (.ok (BigDecimal.ofInt (n : ℤ)), st, [Token.Factorial]) :=
      calc_level9_num_fact 31 st lvl _
    rw [h8, h9, bindRes_ok]
    simp only []
    rw [factorial_ok n h, lift_exc_ok]
  · intro n hn
    have hsgn : Int.sign (-(n : ℤ)) = -1 := by
      rw [Int.sign_eq_neg_one_iff_neg]
      omega
    have hpos : require_positive (BigDecimal.ofInt (-(n : ℤ))) = .error CalcError.NotAPositive := by
      simp [require_positive, BigDecimal.sign, BigDecimal.ofInt, hsgn]
    have hwz : require_whole (BigDecimal.ofInt (-(n : ℤ))) = .ok () := require_whole_int _
    have hstep : factGo (255 - 0) (BigDecimal.ofInt (-(n : ℤ))) none = (do
          require_whole (BigDecimal.ofInt (-(n : ℤ)))
          require_positive (BigDecimal.ofInt (-(n : ℤ)))
          if (BigDecimal.ofInt (-(n : ℤ))).isZero then pure (BigDecimal.one)
          else
            factGo 254 ((BigDecimal.ofInt (-(n : ℤ))).sub BigDecimal.one)
              (some (BigDecimal.one.mul (BigDecimal.ofInt (-(n : ℤ)))))) :=
      factGo_step 254 _ none
    rw [factorial, hstep, hwz, exc_bind_ok, hpos, exc_bind_err]
  · intro q hq
    have hw : require_whole q = .error CalcError.NotAWhole := by simp [require_whole, hq]
    have hstep : factGo (255 - 0) q none = (do
          require_whole q
          require_positive q
          if q.isZero then pure (BigDecimal.one)
          else factGo 254 (q.sub BigDecimal.one) (some (BigDecimal.one.mul q))) :=
      factGo_step 254 _ none
    rw [factorial, hstep, hw, exc_bind_err]

/-- Witness for C5 at concrete inputs. -/
theorem C5_factorial_semantics_witness :
    calc_level8 40 Env.empty 0 [Token.Num (BigDecimal.ofInt ((5 : ℕ) : ℤ)), Token.Factorial] =
      some (.ok (BigDecimal.ofInt (Nat.factorial 5)), Env.empty, [])
    ∧ factorial (BigDecimal.ofInt (-((1 : ℕ) : ℤ))) none 0 = .error CalcError.NotAPositive
    ∧ factorial (BigDecimal.new 25 1) none 0 = .error CalcError.NotAWhole :=
  ⟨C5_factorial_semantics.1 Env.empty 0 5 (by norm_num),
   C5_factorial_semantics.2.1 1 (by norm_num),
   C5_factorial_semantics.2.2.1 (BigDecimal.new 25 1) (by decide)⟩

/-- C10: `%` never checks wholeness (no `require_whole` on either operand),
and when the right operand's truncated integer part is non-zero the result
is the exact integer remainder of the truncated operands at scale 0 —
always a whole number (`5.5%2` = 1). But the claimed universal over every
non-zero right operand is false of the program: the `DivideByZero` guard
tests the decimal value while the remainder is taken on the truncated
integers, so a non-zero operand with zero integer part (e.g. `3%0.5`)
reaches `BigInt % 0`, which panics. In the embedding the panic yields no
result: the Rem combining step returns `none` at every fuel (second
conjunct, quantified over the fuel), and the full pipeline on `3%0.5`
yields `none` at a fuel where the neighbouring `3%1` succeeds — so the
`none` is the panic, not fuel exhaustion. -/
theorem C10_modulo_integer :
    (∀ (st : Env) (lvl : ℕ) (a b : BigDecimal), b.isZero = false →
      ¬(b.toBigInt = 0) →
      calc_level6 40 st lvl [Token.Num a, Token.Rem, Token.Num b] =
        some (.ok (BigDecimal.new (Int.tmod a.toBigInt b.toBigInt) 0), st, []))
    ∧ (∀ (fuel : ℕ) (st : Env) (lvl : ℕ) (a b : BigDecimal), b.isZero = false →
      b.toBigInt = 0 →
      calc_level6_loop (fuel + 11) st lvl [Token.Rem, Token.Num b] a = none)
    ∧ (∀ z : ℤ, ((BigDecimal.new z 0).with_scale 0).eqv (BigDecimal.new z 0) = true)
    ∧ (parse_and_calc 100 "3%0.5" Env.empty).isNone = true
    ∧ result_of (parse_and_calc 100 "3%1" Env.empty) = some (.ok (BigDecimal.new 0 0))
    ∧ result_of (parse_and_calc 100 "5.5%2" Env.empty) = some (.ok (BigDecimal.ofInt 1)) := by
  refine ⟨?_, ?_, ?_, by decide, by decide, by decide⟩
  · intro st lvl a b hb hbig
    have hnz : ¬(b.isZero = true) := by simp [hb]
    rw [calc_level6_step 39 st lvl _, calc_level7_num_rem 29 st lvl a _, bindRes_ok,
      calc_level6_loop_rem_step 38 st lvl _ a, calc_level7_num_nil 28 st lvl _, bindRes_ok,
      if_neg hnz, if_neg hbig]
    exact calc_level6_loop_nil 37 st lvl _
  · intro fuel st lvl a b hb hbig
    have hnz : ¬(b.isZero = true) := by simp [hb]
    show calc_level6_loop (fuel + 10 + 1) st lvl _ a = none
    rw [calc_level6_loop_rem_step (fuel + 10) st lvl _ a,
      calc_level7_num_nil fuel st lvl b, bindRes_ok]
    rw [if_neg hnz, if_pos hbig]
  · intro z
    exact whole_mk z

/-- Witness for C10 at concrete inputs: the exact-remainder conjunct at
`5.5%2`, and the panic conjunct at `3%0.5` (divisor `0.5`: non-zero decimal,
zero integer part). -/
theorem C10_modulo_integer_witness :
    calc_level6 40 Env.empty 0
      [Token.Num (BigDecimal.new 55 1), Token.Rem, Token.Num (BigDecimal.ofInt 2)] =
      some (.ok (BigDecimal.new
        (Int.tmod (BigDecimal.new 55 1).toBigInt (BigDecimal.ofInt 2).toBigInt) 0),
        Env.empty, [])
    ∧ calc_level6_loop 40 Env.empty 0 [Token.Rem, Token.Num (BigDecimal.new 5 1)]
        (BigDecimal.ofInt 3) = none :=
  ⟨C10_modulo_integer.1 Env.empty 0 (BigDecimal.new 55 1) (BigDecimal.ofInt 2)
      (by decide) (by decide),
    C10_modulo_integer.2.1 29 Env.empty 0 (BigDecimal.ofInt 3) (BigDecimal.new 5 1)
      (by decide) (by decide)⟩

end MathTest

namespace MathTest

theorem run_case_none {α : Type} (f : Except CalcError α × Env × List Token → Res) :
    run_case (none : ResA α) f = none := rfl

theorem Env.removeVar_vars (st : Env) (key s : String) :
    (st.removeVar key).vars s = if s = key then none else st.vars s := rfl

theorem remove_args_succ (st : Env) (n : ℕ) :
    remove_args st (n + 1) = (remove_args st n).removeVar (argName (n + 1)) := by
  unfold remove_args
  rw [List.range_succ, List.foldl_append]
  rfl

theorem remove_args_vars_none (st : Env) (len i : ℕ) (h1 : 1 ≤ i) (h2 : i ≤ len) :
    (remove_args st len).vars (argName i) = none := by
  induction len with
  | zero => omega
  | succ n ih =>
    rw [remove_args_succ, Env.removeVar_vars]
    by_cases hcase : argName i = argName (n + 1)
    · rw [if_pos hcase]
    · rw [if_neg hcase]
      have hne : i ≠ n + 1 := fun he => hcase (by rw [he])
      exact ih (by omega)

/-- C9: after any user-defined function call with n arguments — whether the
body evaluation succeeds or errors — the synthetic variables `$1` .. `$n` are
absent from the returned variables map; the removal is unconditional, so a
pre-existing binding of the same synthetic name is deleted rather than
restored, as the concrete nested-call demonstration (second conjunct) shows:
after `g=($1)` and `f=(g(5)+$1)`, evaluating `f(7)` fails with
UnknownVariable "$1" because the inner call to `g` removed the binding `$1=7`
installed by the call to `f`. -/
theorem C9_synthetic_args_removed :
    (∀ (fuel : ℕ) (st : Env) (level : ℕ) (name : String) (args : List BigDecimal)
      (tokens : List Token) (r : Except CalcError BigDecimal × Env × List Token),
      (st.funcs name).isSome = true →
      call_user_function fuel st level name args tokens = some r →
      ∀ i : ℕ, 1 ≤ i → i ≤ args.length → (r.2.1).vars (argName i) = none)
    ∧ result_of ((env_of ((env_of (parse_and_calc 200 "g=($1)" Env.empty)).bind
        (parse_and_calc 200 "f=(g(5)+$1)"))).bind (parse_and_calc 400 "f(7)")) =
      some (.error (CalcError.UnknownVariable "$1")) := by
  refine ⟨?_, by decide⟩
  intro fuel st level name args tokens r hs hcall i h1 h2
  cases fuel with
  | zero => exact Option.noConfusion hcall
  | succ fuel =>
    rw [call_user_function_step] at hcall
    cases hfn : st.funcs name with
    | none => rw [hfn] at hs; exact Bool.noConfusion hs
    | some body =>
      rw [hfn, opt_case_some] at hcall
      cases hc : calculate fuel (insert_args st 0 args) (level + 1) body with
      | none => rw [hc, run_case_none] at hcall; exact Option.noConfusion hcall
      | some x =>
        rw [hc, run_case_some] at hcall
        obtain rfl : (x.1, remove_args x.2.1 args.length, tokens) = r := Option.some.inj hcall
        exact remove_args_vars_none _ _ i h1 h2

/-- C9 witness: the universally quantified removal statement applied at a
concrete call `f(5)` in the environment `stW`, whose variables map binds the
synthetic name `$1` before the call: afterwards `$1` is absent. -/
theorem C9_synthetic_args_removed_witness :
    (call_user_function 60 stW 0 "f" [BigDecimal.ofInt 5] []).map
      (fun r => r.2.1.vars (argName 1)) = some none := by
  have h1 : (call_user_function 60 stW 0 "f" [BigDecimal.ofInt 5] []).isSome = true := by decide
  obtain ⟨r, hr⟩ := Option.isSome_iff_exists.mp h1
  rw [hr, Option.map_some']
  exact congrArg some
    (C9_synthetic_args_removed.1 60 stW 0 "f" [BigDecimal.ofInt 5] [] r (by decide) hr
      1 le_rfl (by decide))

end MathTest

namespace MathTest

theorem res1_some (x : Except CalcError BigDecimal × Env × List Token) :
    res1 (some x) = some x.1 := rfl

theorem insertVar_funcs (st : Env) (n : String) (v : BigDecimal) :
    (st.insertVar n v).funcs = st.funcs := rfl

/-- Propagating an error produced by `calc_paren` on a named block back up
through the whole cascade to `calc_level2`. -/
theorem cascade_err_blockname (fuel : ℕ) (st : Env) (lvl : ℕ) (nm : String)
    (rest : List Token) (e : CalcError) (st2 : Env) (ts2 : List Token)
    (h : calc_paren (fuel + 1) st lvl rest (some nm) = some (.error e, st2, ts2)) :
    calc_level2 (fuel + 10) st lvl (Token.BlockName nm :: rest) =
      some (.error e, st2, ts2) := by
  have e9 : calc_level9 (fuel + 3) st lvl (Token.BlockName nm :: rest) =
      some (.error e, st2, ts2) :=
    (calc_level9_blockname (fuel + 2) st lvl nm rest).trans
      ((calc_paren_blockname (fuel + 1) st lvl nm rest).trans h)
  have e8 : calc_level8 (fuel + 4) st lvl (Token.BlockName nm :: rest) =
      some (.error e, st2, ts2) := by
    have hs := calc_level8_step (fuel + 3) st lvl (Token.BlockName nm :: rest)
    rw [hs, e9, bindRes_err]
  have e7 : calc_level7 (fuel + 5) st lvl (Token.BlockName nm :: rest) =
      some (.error e, st2, ts2) := by
    have hs := calc_level7_step (fuel + 4) st lvl (Token.BlockName nm :: rest)
    rw [hs, e8, bindRes_err]
  have e6 : calc_level6 (fuel + 6) st lvl (Token.BlockName nm :: rest) =
      some (.error e, st2, ts2) := by
    have hs := calc_level6_step (fuel + 5) st lvl (Token.BlockName nm :: rest)
    rw [hs, e7, bindRes_err]
  have e5 : calc_level5 (fuel + 7) st lvl (Token.BlockName nm :: rest) =
      some (.error e, st2, ts2) := by
    have hs := calc_level5_step (fuel + 6) st lvl (Token.BlockName nm :: rest)
    rw [hs, e6, bindRes_err]
  have e4 : calc_level4 (fuel + 8) st lvl (Token.BlockName nm :: rest) =
      some (.error e, st2, ts2) := by
    have hs := calc_level4_step (fuel + 7) st lvl (Token.BlockName nm :: rest)
    rw [hs, e5, bindRes_err]
  have e3 : calc_level3 (fuel + 9) st lvl (Token.BlockName nm :: rest) =
      some (.error e, st2, ts2) := by
    have hs := calc_level3_step (fuel + 8) st lvl (Token.BlockName nm :: rest)
    rw [hs, e4, bindRes_err]
  have hs := calc_level2_step (fuel + 9) st lvl (Token.BlockName nm :: rest)
  rw [show fuel + 10 = fuel + 9 + 1 from rfl, hs, e3, bindRes_err]

/-- A number literal followed by a closing paren evaluates to itself at any
level strictly between the guard bounds. -/
theorem calculate_num_parenclose (fuel : ℕ) (st : Env) (lvl : ℕ) (v : BigDecimal)
    (rest : List Token) (h255 : lvl ≠ 255) (h0 : lvl ≠ 0) :
    calculate (fuel + 13) st lvl (Token.Num v :: Token.ParenClose :: rest) =
      some (.ok v, st, Token.ParenClose :: rest) := by
  show calculate (fuel + 12 + 1) st lvl _ = _
  rw [calculate_step, if_neg h255, calc_level2_num_parenclose fuel st lvl v rest,
    bindRes_ok]
  simp only []
  rw [if_pos h0]

theorem parse_args_num_pc (fuel : ℕ) (st : Env) (lvl : ℕ) (v : BigDecimal)
    (rest : List Token) (h255 : lvl ≠ 255) (h0 : lvl ≠ 0) :
    parse_args (fuel + 14) st lvl (Token.Num v :: Token.ParenClose :: rest) [] =
      some (.ok [v], st, Token.ParenClose :: rest) := by
  show parse_args (fuel + 13 + 1) st lvl _ _ = _
  rw [parse_args_step, calculate_num_parenclose fuel st lvl v rest h255 h0, bindRes_ok]
  simp only []
  rfl

/-- Calling the self-recursive `f` whose stored body is `selfBody` from any
context `255 - k` levels below the ceiling fails with TooDeep, given linear
fuel. The level counter goes up by one on each nested invocation, so after
`k` nested calls the guard `level = 255` fires. -/
theorem selfrec_too_deep (k : ℕ) : k ≤ 255 → ∀ (fuel : ℕ) (st : Env)
    (rest : List Token), 13 * k + 45 ≤ fuel → st.funcs "f" = some selfBody →
    res1 (calculate fuel st (255 - k) (Token.BlockName "f" :: Token.ParenOpen ::
      Token.Num (BigDecimal.ofInt 1) :: Token.ParenClose :: rest)) =
      some (.error CalcError.TooDeep) := by
  induction k with
  | zero =>
    intro _ fuel st rest hfuel hf
    obtain ⟨m, rfl⟩ : ∃ m, fuel = m + 1 := ⟨fuel - 1, by omega⟩
    rw [show (255 : ℕ) - 0 = 255 from rfl, calculate_step, if_pos rfl]
    rfl
  | succ k ih =>
    intro hk fuel st rest hfuel hf
    obtain ⟨m, rfl⟩ : ∃ m, fuel = m + 40 := ⟨fuel - 40, by omega⟩
    rw [show (255 : ℕ) - (k + 1) = 254 - k from by omega]
    suffices h : ∃ stX tsX, calc_paren (m + 30) st (254 - k)
        (Token.ParenOpen :: Token.Num (BigDecimal.ofInt 1) :: Token.ParenClose ::
          rest) (some "f") = some (.error CalcError.TooDeep, stX, tsX) by
      obtain ⟨stX, tsX, h⟩ := h
      have hcas : calc_level2 (m + 39) st (254 - k) (Token.BlockName "f" ::
          Token.ParenOpen :: Token.Num (BigDecimal.ofInt 1) :: Token.ParenClose ::
          rest) = some (.error CalcError.TooDeep, stX, tsX) :=
        cascade_err_blockname (m + 29) st (254 - k) "f" _ CalcError.TooDeep stX tsX h
      show res1 (calculate (m + 39 + 1) st (254 - k) _) = _
      rw [calculate_step, if_neg (by omega : ¬(254 - k = 255)), hcas, bindRes_err]
      rfl
    rcases Nat.eq_zero_or_pos k with rfl | hkpos
    · refine ⟨st, Token.Num (BigDecimal.ofInt 1) :: Token.ParenClose :: rest, ?_⟩
      show calc_paren (m + 29 + 1) st (254 - 0) _ (some "f") = _
      rw [calc_paren_call_args]
      have hp : parse_args (m + 29) st (254 - 0 + 1) (Token.Num (BigDecimal.ofInt 1)
          :: Token.ParenClose :: rest) [] = some (.error CalcError.TooDeep, st,
          Token.Num (BigDecimal.ofInt 1) :: Token.ParenClose :: rest) := by
        show parse_args (m + 28 + 1) st _ _ _ = _
        rw [parse_args_step]
        have hcz : calculate (m + 28) st (254 - 0 + 1) (Token.Num
            (BigDecimal.ofInt 1) :: Token.ParenClose :: rest) =
            some (.error CalcError.TooDeep, st, Token.Num (BigDecimal.ofInt 1) ::
              Token.ParenClose :: rest) := by
          show calculate (m + 27 + 1) st _ _ = _
          rw [calculate_step, if_pos (by omega : 254 - 0 + 1 = 255)]
        rw [hcz, bindRes_err]
      rw [hp, bindRes_err]
    · have hf2 : (insert_args st 0 [BigDecimal.ofInt 1]).funcs "f" = some selfBody :=
        hf
      have harg := ih (by omega) (m + 28) (insert_args st 0 [BigDecimal.ofInt 1])
        [Token.ParenClose] (by omega) hf2
      rw [show (Token.BlockName "f" :: Token.ParenOpen :: Token.Num
        (BigDecimal.ofInt 1) :: Token.ParenClose :: [Token.ParenClose]) = selfBody
        from rfl] at harg
      cases hc : calculate (m + 28) (insert_args st 0 [BigDecimal.ofInt 1])
          (255 - k) selfBody with
      | none => rw [hc] at harg; exact Option.noConfusion harg
      | some x =>
        rw [hc, res1_some] at harg
        have hx1 : x.1 = Except.error CalcError.TooDeep := Option.some.inj harg
        refine ⟨remove_args x.2.1 1, rest, ?_⟩
        show calc_paren (m + 29 + 1) st (254 - k) _ (some "f") = _
        rw [calc_paren_call_args]
        have hp : parse_args (m + 29) st (254 - k + 1) (Token.Num
            (BigDecimal.ofInt 1) :: Token.ParenClose :: rest) [] =
            some (.ok [BigDecimal.ofInt 1], st, Token.ParenClose :: rest) :=
          parse_args_num_pc (m + 15) st (254 - k + 1) _ rest (by omega) (by omega)
        rw [hp, bindRes_ok]
        simp only []
        rw [if_neg (by decide : ¬("f" = "abs")), if_neg (by decide : ¬("f" = "pow"))]
        show call_user_function (m + 28 + 1) st (254 - k) "f" [BigDecimal.ofInt 1]
          rest = _
        rw [call_user_function_step, hf, opt_case_some]
        rw [show 254 - k + 1 = 255 - k from by omega]
        rw [hc, run_case_some, hx1]
        rfl

/-- C3: a call to a self-referential user-defined function terminates with the
typed error TooDeep once the depth counter reaches its ceiling of 255. First
conjunct: defining the function (snapshot syntax `f=(f(1))`) succeeds with
value zero and stores the self-referential body `selfBody`, and `f(1)`
tokenizes to the expected call tokens. Second conjunct: for every environment
carrying that body and any sufficient fuel, evaluating the call tokens at top
level (level 0) returns TooDeep — the result is `some _`, so the evaluation
terminates within linear fuel rather than recursing without bound; the level
counter increments on every nested invocation (`level + 1` in
`call_user_function_step`), which is what the inductive proof
`selfrec_too_deep` tracks. -/
theorem C3_self_recursion_too_deep :
    (result_of (parse_and_calc 200 "f=(f(1))" Env.empty) =
        some (.ok BigDecimal.zero)
      ∧ (env_of (parse_and_calc 200 "f=(f(1))" Env.empty)).map
          (fun e => e.funcs "f") = some (some selfBody)
      ∧ parse "f(1)" = .ok [Token.BlockName "f", Token.ParenOpen,
          Token.Num (BigDecimal.ofInt 1), Token.ParenClose])
    ∧ (∀ (fuel : ℕ) (st : Env), 3360 ≤ fuel → st.funcs "f" = some selfBody →
        res1 (calculate fuel st 0 [Token.BlockName "f", Token.ParenOpen,
          Token.Num (BigDecimal.ofInt 1), Token.ParenClose]) =
          some (.error CalcError.TooDeep)) := by
  refine ⟨by decide, ?_⟩
  intro fuel st hfuel hf
  have h := selfrec_too_deep 255 (le_refl 255) fuel st [] (by omega) hf
  rw [show (255 : ℕ) - 255 = 0 from rfl] at h
  exact h

/-- C3 witness: the TooDeep conclusion instantiated at the concrete
environment that stores `selfBody` under `f`, with fuel exactly 3360. -/
theorem C3_self_recursion_too_deep_witness :
    (3360 : ℕ) ≤ 3360
    ∧ (Env.empty.insertFn "f" selfBody).funcs "f" = some selfBody
    ∧ res1 (calculate 3360 (Env.empty.insertFn "f" selfBody) 0 [Token.BlockName "f",
        Token.ParenOpen, Token.Num (BigDecimal.ofInt 1), Token.ParenClose]) =
      some (.error CalcError.TooDeep) :=
  ⟨le_refl 3360, rfl, C3_self_recursion_too_deep.2 3360
    (Env.empty.insertFn "f" selfBody) (le_refl 3360) rfl⟩

end MathTest
